import Mathlib

/-!
# Verification of the liaison namespace-resolution engine and command session protocol

Shallow embedding of `src/liaison/companion/companion.py`, `src/liaison/base.py` and
`src/liaison/websocket/websocket.py`. Python values are modelled by the inductive
`PyVal`; raised exceptions by `Except PyErr`; the mutable `Companion.namespace`
dict is passed explicitly as a `Namespace`. External collaborators (the Python
module loader and the callables reachable through it) are modelled by an explicit
environment `Env`.
-/

set_option autoImplicit false

namespace Liaison

/-- A raised Python exception: its class name and message. The traceback carried by a
real exception object is not modelled. -/
structure PyErr where
  kind : String
  msg : String
deriving Repr

/-- Python runtime values, restricted to the fragment the liaison code manipulates:
JSON scalars and containers, plain attribute-carrying objects, modules, named
callables (defunctionalised: applied through `Env.funs`), exception objects, and the
two bridge objects (`Companion` / liaison instances). -/
inductive PyVal where
  | vNone
  | vBool (b : Bool)
  | vInt (n : Int)
  | vStr (s : String)
  | vList (xs : List PyVal)
  | vDict (entries : List (PyVal × PyVal))
  | vObj (attrs : List (String × PyVal))
  | vModule (name : String) (attrs : List (String × PyVal))
  | vFun (name : String)
  | vExc (kind msg : String)
  | vCompanion
  | vLiaison
deriving Repr

open PyVal

/-- Equality of Python values as used for dict-key comparison. Python dict keys must be
hashable, so deep container equality is never needed here; `True == 1` style
bool/int cross-equality is modelled. Objects and modules compare by identity, which
structural equality does not capture; they are never used as keys by the code. -/
def pyKeyEq : PyVal → PyVal → Bool
  | vNone, vNone => true
  | vBool a, vBool b => a == b
  | vBool a, vInt b => (if a then (1 : Int) else 0) == b
  | vInt a, vBool b => a == (if b then (1 : Int) else 0)
  | vInt a, vInt b => a == b
  | vStr a, vStr b => a == b
  | vFun a, vFun b => a == b
  | vCompanion, vCompanion => true
  | vLiaison, vLiaison => true
  | _, _ => false

/-- Python dict keys must be hashable; lists and dicts are not. -/
def isHashable : PyVal → Bool
  | vList _ => false
  | vDict _ => false
  | _ => true

/-- The `Companion.namespace` dict: symbolic name → live value. -/
def Namespace := List (PyVal × PyVal)

/-- Dict lookup (`d[k]` / `d.get(k)` succeeding). -/
def nsLookup (k : PyVal) (ns : Namespace) : Option PyVal :=
  match ns with
  | [] => none
  | (k', v) :: rest => if pyKeyEq k' k then some v else nsLookup k rest

/-- Dict key membership (`k in d`). -/
def nsContains (k : PyVal) (ns : Namespace) : Bool :=
  match ns with
  | [] => false
  | (k', _) :: rest => pyKeyEq k' k || nsContains k rest

/-- Dict assignment `d[k] = v`: update in place when the key exists, else append. -/
def nsInsert (k v : PyVal) : Namespace → Namespace
  | [] => [(k, v)]
  | (k', v') :: rest =>
      if pyKeyEq k' k then (k', v) :: rest else (k', v') :: nsInsert k v rest

/-- Generic association-list lookup on PyVal-keyed pair lists (used for dict `.get`). -/
def dictGet (entries : List (PyVal × PyVal)) (k : PyVal) : Option PyVal :=
  match entries with
  | [] => none
  | (k', v) :: rest => if pyKeyEq k' k then some v else dictGet rest k

/-- String-keyed association lookup (object attributes, keyword arguments). -/
def alistGet (entries : List (String × PyVal)) (k : String) : Option PyVal :=
  match entries with
  | [] => none
  | (k', v) :: rest => if k' == k then some v else alistGet rest k

/-! ## Character and string utilities

All string processing is defined over `List Char` by structural recursion so that
concrete instances reduce by `rfl` and universally quantified statements admit list
induction. `String`-level wrappers go through `String.data`. -/

/-- A character matched by the regex character class `[\w\d_]` (ASCII fragment of
Python's `\w`). -/
def isIdentChar (c : Char) : Bool :=
  c.isAlpha || c.isDigit || c == '_'

/-- One nonempty run of `[\w\d_]` characters: a segment of the reference grammars. -/
def isWordSeg (l : List Char) : Bool :=
  !l.isEmpty && l.all isIdentChar

/-- A valid Python identifier (what `eval` accepts as a bare name). -/
def isPyIdent (l : List Char) : Bool :=
  match l with
  | [] => false
  | c :: cs => (c.isAlpha || c == '_') && cs.all isIdentChar

/-- A nonempty all-digit run (an integer literal). -/
def isDigitSeg (l : List Char) : Bool :=
  !l.isEmpty && l.all Char.isDigit

/-- Numeric value of an all-digit run. -/
def digitsToNat (l : List Char) : Nat :=
  l.foldl (fun acc c => acc * 10 + (c.toNat - '0'.toNat)) 0

def splitCharAux (c : Char) : List Char → List Char → List (List Char)
  | [], acc => [acc.reverse]
  | x :: xs, acc =>
      if x == c then acc.reverse :: splitCharAux c xs []
      else splitCharAux c xs (x :: acc)

/-- Python `s.split(c)` for a one-character separator: never returns `[]`;
`"".split(".") == [""]`. -/
def splitChar (c : Char) (l : List Char) : List (List Char) :=
  splitCharAux c l []

/-- Python `s.split(c, 1)` when the separator occurs: the parts before and after its
first occurrence; `none` when the separator is absent. -/
def splitFirst (c : Char) : List Char → Option (List Char × List Char)
  | [] => none
  | x :: xs =>
      if x == c then some ([], xs)
      else match splitFirst c xs with
        | some (a, b) => some (x :: a, b)
        | none => none

/-- Models `'.'`-joined concatenation of segments (left inverse of `splitChar '.'` on
dot-free segments). -/
def joinDots : List (List Char) → List Char
  | [] => []
  | [x] => x
  | x :: xs => x ++ '.' :: joinDots xs

/-- Whether `sub` occurs as a contiguous run inside `l` (Python `sub in s` on
strings). -/
def containsSub (sub : List Char) : List Char → Bool
  | [] => sub.isEmpty
  | x :: xs => sub.isPrefixOf (x :: xs) || containsSub sub xs

/-! ## Reference grammars (companion.py lines 5-10)

`RE_IMPORT_STRING = ^([\w\d_]+)(\.[\w\d_]+)*(:[\w\d_]+)?(\.[\w\d_]+)*$`
`RE_RESOLVE_STRING = ^\$([\w\d_]+)(\.[\w\d_]+)*$` -/

/-- Models `seg(.seg)*` with each segment a nonempty `[\w\d_]+` run. `splitChar` never
returns `[]`, and on the empty string returns `[[]]`, which `isWordSeg` rejects. -/
def isDottedPath (l : List Char) : Bool :=
  (splitChar '.' l).all isWordSeg

/-- Models `RE_IMPORT_STRING.fullmatch`: at most one `:`, word-segment dotted paths on each
side. -/
def matchImportString (l : List Char) : Bool :=
  match splitChar ':' l with
  | [m] => isDottedPath m
  | [m, a] => isDottedPath m && isDottedPath a
  | _ => false

/-- Models `RE_RESOLVE_STRING.fullmatch`: a `$` sigil followed by a word-segment dotted
path. -/
def matchResolveString (l : List Char) : Bool :=
  match l with
  | '$' :: rest => isDottedPath rest
  | _ => false

/-! ## Python attribute access, membership, subscription -/

/-- Models `getattr(v, a)` on the modelled fragment: objects expose their attribute list;
modules expose `__name__` and their attribute list. Other values expose no
attributes in the model (their built-in methods are outside the fragment). -/
def pyGetattr (v : PyVal) (a : String) : Except PyErr PyVal :=
  match v with
  | vObj attrs =>
      match alistGet attrs a with
      | some w => .ok w
      | none => .error ⟨"AttributeError", "object has no attribute '" ++ a ++ "'"⟩
  | vModule n attrs =>
      if a == "__name__" then .ok (vStr n)
      else match alistGet attrs a with
        | some w => .ok w
        | none => .error ⟨"AttributeError", "module '" ++ n ++ "' has no attribute '" ++ a ++ "'"⟩
  | _ => .error ⟨"AttributeError", "object has no attribute '" ++ a ++ "'"⟩

/-- Python `needle in container`: substring test on strings, element membership on
lists, key membership on dicts; `TypeError` on non-iterable values (None, numbers,
modules, classes, functions, plain objects, the bridge objects). -/
def pyContains (container needle : PyVal) : Except PyErr Bool :=
  match container with
  | vStr s =>
      match needle with
      | vStr sub => .ok (containsSub sub.data s.data)
      | _ => .error ⟨"TypeError", "'in <string>' requires string as left operand"⟩
  | vList xs => .ok (xs.any (pyKeyEq needle))
  | vDict entries => .ok (entries.any (fun kv => pyKeyEq kv.1 needle))
  | _ => .error ⟨"TypeError", "argument is not iterable"⟩

/-- Python subscription `v[k]` on the modelled fragment: dict key lookup with
`KeyError`, list indexing (including negative indices) with `IndexError`;
`TypeError` elsewhere. -/
def pySubscript (v k : PyVal) : Except PyErr PyVal :=
  match v with
  | vDict entries =>
      match dictGet entries k with
      | some w => .ok w
      | none => .error ⟨"KeyError", "missing key"⟩
  | vList xs =>
      match k with
      | vInt i =>
          let j : Int := if i < 0 then i + xs.length else i
          if h : 0 ≤ j ∧ j.toNat < xs.length then .ok (xs.get ⟨j.toNat, h.2⟩)
          else .error ⟨"IndexError", "list index out of range"⟩
      | _ => .error ⟨"TypeError", "list indices must be integers"⟩
  | _ => .error ⟨"TypeError", "object is not subscriptable"⟩

/-! ## External environment

The Python import system (`importlib.import_module`) and the behaviour of callables
reachable through it are external collaborators; they are modelled by an explicit
environment. -/

/-- External environment: the loadable modules, and the behaviour of named callables
(`PyVal.vFun`), each mapping positional and keyword arguments to a result or a
raised exception. -/
structure Env where
  modules : List (String × PyVal)
  funs : String → List PyVal → List (String × PyVal) → Except PyErr PyVal

/-- Invoking a resolved value: defunctionalised callables run through `Env.funs`;
every other modelled value is not callable. -/
def applyCallable (env : Env) (f : PyVal) (args : List PyVal)
    (kwargs : List (String × PyVal)) : Except PyErr PyVal :=
  match f with
  | vFun n => env.funs n args kwargs
  | _ => .error ⟨"TypeError", "object is not callable"⟩

/-! ## Companion.resolve_import (companion.py lines 31-67) -/

/-- Models `Companion.resolve_import(target)`: assert the import regex matches, split at the
first `:` into module path and attribute path, import the module, then `getattr`
down the attribute path. `importlib.import_module` is modelled by `Env.modules`. -/
def resolveImport (target : List Char) (env : Env) : Except PyErr PyVal := do
  if matchImportString target then
    let (modstr, attrs) :=
      match splitFirst ':' target with
      | some (m, a) => (m, splitChar '.' a)
      | none => (target, [])
    match alistGet env.modules (String.mk modstr) with
    | some m => attrs.foldlM (fun v a => pyGetattr v (String.mk a)) m
    | none => .error ⟨"ModuleNotFoundError", "No module named '" ++ String.mk modstr ++ "'"⟩
  else
    .error ⟨"AssertionError",
      "Target '" ++ String.mk target ++ "' does not look like a Python import."⟩

/-- Models `re.fullmatch` on a non-string argument raises `TypeError`, so `resolve_import`
accepts only strings. -/
def resolveImportVal (target : PyVal) (env : Env) : Except PyErr PyVal :=
  match target with
  | vStr s => resolveImport s.data env
  | _ => .error ⟨"TypeError", "expected string or bytes-like object"⟩

/-! ## The `eval` model (companion.py line 94)

`Companion.resolve` hands the whole target string to Python's built-in `eval` with
the registry as its global namespace. `eval` is the language's general expression
evaluator; the model covers the fragment needed by the claims: integer literals,
bare names, chained attribute access, and `+` between evaluated terms. Strings
outside the fragment are reported as `SyntaxError`. Within the fragment the model
agrees with CPython (the automatic `__builtins__` injection is not modelled). -/

/-- A parsed term of the modelled expression fragment: an integer literal or a
dotted attribute path rooted at a name. -/
inductive PyTerm where
  | intLit (n : Nat)
  | path (root : List Char) (attrs : List (List Char))

/-- Parse one `+`-free term: all-digit runs are integer literals; otherwise the term
must be a chain `ident(.ident)*` of Python identifiers. -/
def parseTerm (t : List Char) : Option PyTerm :=
  match splitChar '.' t with
  | root :: attrs =>
      if isPyIdent root && attrs.all isPyIdent then some (.path root attrs)
      else if isDigitSeg t then some (.intLit (digitsToNat t))
      else none
  | [] => none

/-- Evaluate a parsed term: literal value, or name lookup in the namespace followed
by attribute accesses. -/
def evalTerm (ns : Namespace) : PyTerm → Except PyErr PyVal
  | .intLit n => .ok (vInt n)
  | .path root attrs => do
      match nsLookup (vStr (String.mk root)) ns with
      | some v => attrs.foldlM (fun v a => pyGetattr v (String.mk a)) v
      | none => .error ⟨"NameError", "name '" ++ String.mk root ++ "' is not defined"⟩

/-- Python `+` on the evaluated fragment: integer addition and string
concatenation. -/
def pyAdd : PyVal → PyVal → Except PyErr PyVal
  | vInt a, vInt b => .ok (vInt (a + b))
  | vStr a, vStr b => .ok (vStr (a ++ b))
  | _, _ => .error ⟨"TypeError", "unsupported operand type(s) for +"⟩

/-- Models `eval(target, namespace)` on the modelled fragment: split at `+` into terms,
evaluate left to right, folding with `+`. -/
def pyEval (target : List Char) (ns : Namespace) : Except PyErr PyVal :=
  match (splitChar '+' target).mapM parseTerm with
  | none => .error ⟨"SyntaxError", "invalid syntax"⟩
  | some [] => .error ⟨"SyntaxError", "invalid syntax"⟩
  | some (t :: ts) => do
      ts.foldlM (fun acc t => do pyAdd acc (← evalTerm ns t)) (← evalTerm ns t)

/-! ## Companion.resolve, actualize, call, attempt, initialize, register, store, ping
(companion.py lines 69-244) -/

/-- Models `Companion.resolve(target)`: if the segment before the first `.` is a registry
key, evaluate the whole string with `eval` in the registry namespace; otherwise
treat it as an import string. -/
def resolveL (target : List Char) (ns : Namespace) (env : Env) : Except PyErr PyVal :=
  match splitChar '.' target with
  | seg0 :: _ =>
      if nsContains (vStr (String.mk seg0)) ns then pyEval target ns
      else resolveImport target env
  | [] => resolveImport target env

/-- Models `resolve` invoked on an arbitrary value: `target.split(".")` requires a string
(`AttributeError` otherwise). -/
def resolveTarget (target : PyVal) (ns : Namespace) (env : Env) : Except PyErr PyVal :=
  match target with
  | vStr s => resolveL s.data ns env
  | _ => .error ⟨"AttributeError", "object has no attribute 'split'"⟩

/-- Models `Companion.actualize(arg)`: a string fully matching `RE_RESOLVE_STRING` is
replaced by `resolve(arg[1:])`; every other value (including containers with sigil
strings inside) is returned unchanged. -/
def actualize (arg : PyVal) (ns : Namespace) (env : Env) : Except PyErr PyVal :=
  match arg with
  | vStr s =>
      if matchResolveString s.data then resolveL s.data.tail ns env else .ok (vStr s)
  | v => .ok v

/-- Actualization of one keyword pair: the comprehension in `call` actualizes each
key and each value. -/
def actualizeKw (ns : Namespace) (env : Env) (kv : String × PyVal) :
    Except PyErr (PyVal × PyVal) := do
  let k ← actualize (vStr kv.1) ns env
  let v ← actualize kv.2 ns env
  pure (k, v)

/-- Models `**`-expansion at a call site: every keyword key must be a string. -/
def asStrKeys (kvs : List (PyVal × PyVal)) : Except PyErr (List (String × PyVal)) :=
  kvs.mapM fun kv =>
    match kv.1 with
    | vStr k => .ok (k, kv.2)
    | _ => .error ⟨"TypeError", "keywords must be strings"⟩

/-- Models `Companion.call(fcn, *args, **kwargs)`: resolve `fcn` to a callable, actualize
each positional argument and each keyword key and value, invoke, and return the raw
result. The registry is untouched (the modelled callables do not mutate it). -/
def callFn (fcn : PyVal) (args : List PyVal) (kwargs : List (String × PyVal))
    (ns : Namespace) (env : Env) : Except PyErr (PyVal × Namespace) := do
  let f ← resolveTarget fcn ns env
  let args' ← args.mapM (fun a => actualize a ns env)
  let kwPairs ← kwargs.mapM (actualizeKw ns env)
  let kwargs' ← asStrKeys kwPairs
  let r ← applyCallable env f args' kwargs'
  pure (r, ns)

/-- Models `Companion.attempt(fcn, *args, **kwargs)`: `call` wrapped in
`try/except Exception`, returning `{'success': bool, 'result': value-or-exception}`
in both cases. -/
def attemptFn (fcn : PyVal) (args : List PyVal) (kwargs : List (String × PyVal))
    (ns : Namespace) (env : Env) : Except PyErr (PyVal × Namespace) :=
  match callFn fcn args kwargs ns env with
  | .ok (v, ns') =>
      .ok (vDict [(vStr "success", vBool true), (vStr "result", v)], ns')
  | .error e =>
      .ok (vDict [(vStr "success", vBool false), (vStr "result", vExc e.kind e.msg)], ns)

/-- Dict assignment `self.namespace[name] = value`, raising `TypeError` on an
unhashable key. -/
def nsAssign (name value : PyVal) (ns : Namespace) : Except PyErr Namespace :=
  if isHashable name then .ok (nsInsert name value ns)
  else .error ⟨"TypeError", "unhashable type"⟩

/-- Models `Companion.store(name, value)`: unconditional registry write; returns `name`. -/
def storeFn (name value : PyVal) (ns : Namespace) : Except PyErr (PyVal × Namespace) := do
  let ns' ← nsAssign name value ns
  pure (name, ns')

/-- The `'{}'.format(target)` text inside `register`'s naming-error message. -/
def targetText : PyVal → String
  | vStr s => s
  | _ => "<target>"

/-- Models `Companion.register(name, target)`: import `target`; when `name` is `None`, the
code tests `"__name__" in element` — the membership operator, not `hasattr` — and
only then reads `element.__name__`; when the membership test returns False it raises
the `AttributeError` naming error; finally stores and returns the name. -/
def registerFn (name target : PyVal) (ns : Namespace) (env : Env) :
    Except PyErr (PyVal × Namespace) := do
  let element ← resolveImportVal target env
  let name' ←
    match name with
    | vNone => do
        match pyContains element (vStr "__name__") with
        | .ok true => pyGetattr element "__name__"
        | .ok false =>
            .error ⟨"AttributeError",
              "Could not infer name from '" ++ targetText target ++
                "' as value is not a named object"⟩
        | .error e => .error e
    | n => pure n
  let ns' ← nsAssign name' element ns
  pure (name', ns')

/-- Models `Companion.initialize(name, cls, *args, **kwargs)`:
`self.namespace[name] = self.call(cls, *args, **kwargs); return name`. -/
def initializeFn (name cls : PyVal) (args : List PyVal)
    (kwargs : List (String × PyVal)) (ns : Namespace) (env : Env) :
    Except PyErr (PyVal × Namespace) := do
  let (v, ns₁) ← callFn cls args kwargs ns env
  let ns₂ ← nsAssign name v ns₁
  pure (name, ns₂)

/-- Models `Companion.ping()`: returns `"pong"`. -/
def pingFn : PyVal := vStr "pong"

/-- Models `Companion.__init__`: the registry is seeded with the companion itself. -/
def companionInitNS : Namespace := [(vStr "companion", vCompanion)]

/-- Models `BaseLiaison.__init__`: wrapping a fresh companion additionally stores the
liaison object under `'liaison'`. -/
def liaisonInitNS : Namespace := nsInsert (vStr "liaison") vLiaison companionInitNS

/-! ## Python argument binding for `command(*args, **kwargs)` -/

/-- Bind one named parameter: taken from the next positional argument when one
remains (`TypeError` if a keyword also supplies it), else from the keyword
arguments, else `TypeError` for a missing argument. Returns the bound value and the
remaining positionals and keywords. -/
def bindParam (p : String) (args : List PyVal) (kw : List (String × PyVal)) :
    Except PyErr (PyVal × List PyVal × List (String × PyVal)) :=
  match args with
  | a :: rest =>
      if kw.any (fun q => q.1 == p) then
        .error ⟨"TypeError", "got multiple values for argument '" ++ p ++ "'"⟩
      else .ok (a, rest, kw)
  | [] =>
      match alistGet kw p with
      | some v => .ok (v, [], kw.filter (fun q => !(q.1 == p)))
      | none => .error ⟨"TypeError", "missing a required argument: '" ++ p ++ "'"⟩

/-- After all fixed parameters of a non-variadic signature are bound, leftover
positional or keyword arguments are a `TypeError`. -/
def endBind (args : List PyVal) (kw : List (String × PyVal)) : Except PyErr Unit :=
  match args, kw with
  | [], [] => .ok ()
  | _ :: _, _ => .error ⟨"TypeError", "too many positional arguments"⟩
  | [], (k, _) :: _ => .error ⟨"TypeError", "got an unexpected keyword argument '" ++ k ++ "'"⟩

/-! ## The command table and dispatcher (companion.py lines 21-29, base.py lines 24-36) -/

/-- A dispatched operation: the envelope's `args` applied positionally and its
`kwargs` by key to one bound method of the companion. -/
def CommandFn :=
  List PyVal → List (String × PyVal) → Namespace → Env → Except PyErr (PyVal × Namespace)

/-- Models `self.resolve` called as `resolve(*args, **kwargs)` (signature `(target)`). -/
def getCmd : CommandFn := fun args kw ns env => do
  let (t, rest, kw') ← bindParam "target" args kw
  let _ ← endBind rest kw'
  let v ← resolveTarget t ns env
  pure (v, ns)

/-- Models `self.initialize` called as `initialize(*args, **kwargs)`
(signature `(name, cls, *args, **kwargs)`). -/
def initCmd : CommandFn := fun args kw ns env => do
  let (n, rest₁, kw₁) ← bindParam "name" args kw
  let (c, rest₂, kw₂) ← bindParam "cls" rest₁ kw₁
  initializeFn n c rest₂ kw₂ ns env

/-- Models `self.call` called as `call(*args, **kwargs)` (signature `(fcn, *args, **kwargs)`). -/
def runCmd : CommandFn := fun args kw ns env => do
  let (f, rest, kw') ← bindParam "fcn" args kw
  callFn f rest kw' ns env

/-- Models `self.attempt` called as `attempt(*args, **kwargs)` (signature `(fcn, *args, **kwargs)`). -/
def tryCmd : CommandFn := fun args kw ns env => do
  let (f, rest, kw') ← bindParam "fcn" args kw
  attemptFn f rest kw' ns env

/-- Models `self.register` called as `register(*args, **kwargs)` (signature `(name, target)`). -/
def registerCmd : CommandFn := fun args kw ns env => do
  let (n, rest₁, kw₁) ← bindParam "name" args kw
  let (t, rest₂, kw₂) ← bindParam "target" rest₁ kw₁
  let _ ← endBind rest₂ kw₂
  registerFn n t ns env

/-- Models `self.store` called as `store(*args, **kwargs)` (signature `(name, value)`). -/
def storeCmd : CommandFn := fun args kw ns _ => do
  let (n, rest₁, kw₁) ← bindParam "name" args kw
  let (v, rest₂, kw₂) ← bindParam "value" rest₁ kw₁
  let _ ← endBind rest₂ kw₂
  storeFn n v ns

/-- Models `self.ping` called as `ping(*args, **kwargs)` (signature `()`). -/
def pingCmd : CommandFn := fun args kw ns _ => do
  let _ ← endBind args kw
  pure (pingFn, ns)

/-- Models `Companion.__init__`'s `self.commands`: the fixed seven-entry table from command
name to bound method. -/
def commandsTable : List (String × CommandFn) :=
  [("get", getCmd), ("init", initCmd), ("run", runCmd), ("try", tryCmd),
   ("register", registerCmd), ("store", storeCmd), ("ping", pingCmd)]

/-- Lookup in the commands table. -/
def tableLookup (c : String) : List (String × CommandFn) → Option CommandFn
  | [] => none
  | (k, f) :: rest => if k == c then some f else tableLookup c rest

/-- The seven command names. -/
def commandNames : List String := ["get", "init", "run", "try", "register", "store", "ping"]

/-- Modelled from the spec: `command.schema.json` is referenced by `base.py` but is
not under `src/`. Spec section 6 gives the required wire shape
`{"command": <string>, "args": <array, optional>, "kwargs": <object, optional>}`
and section 4.4 says the schema constrains `command` to the enumerated seven
operation names. -/
def validateCommand (v : PyVal) : Bool :=
  match v with
  | vDict entries =>
      (match dictGet entries (vStr "command") with
       | some (vStr c) => commandNames.contains c
       | _ => false)
      && (match dictGet entries (vStr "args") with
          | none => true
          | some (vList _) => true
          | some _ => false)
      && (match dictGet entries (vStr "kwargs") with
          | none => true
          | some (vDict _) => true
          | some _ => false)
  | _ => false

/-- The envelope's `command.get('args', [])`. -/
def envelopeArgs (entries : List (PyVal × PyVal)) : List PyVal :=
  match dictGet entries (vStr "args") with
  | some (vList l) => l
  | _ => []

/-- The envelope's `command.get('kwargs', {})`. -/
def envelopeKwargs (entries : List (PyVal × PyVal)) : List (PyVal × PyVal) :=
  match dictGet entries (vStr "kwargs") with
  | some (vDict d) => d
  | _ => []

/-- Models `BaseLiaison.process_command(command)`: schema-validate (returning `None` with
no effect on failure), default `args`/`kwargs`, look the command name up in the
fixed table, and invoke the mapped operation with `*args, **kwargs`. -/
def processCommand (env : Env) (cmd : PyVal) (ns : Namespace) :
    Except PyErr (PyVal × Namespace) :=
  if validateCommand cmd then
    match cmd with
    | vDict entries =>
        match dictGet entries (vStr "command") with
        | some (vStr c) =>
            match tableLookup c commandsTable with
            | some f => do
                let kw ← asStrKeys (envelopeKwargs entries)
                f (envelopeArgs entries) kw ns env
            | none => .error ⟨"KeyError", c⟩
        | _ => .error ⟨"KeyError", "command"⟩
    | _ => .error ⟨"TypeError", "command is not a mapping"⟩
  else .ok (vNone, ns)

/-! ## Session loop (websocket.py lines 53-108)

One iteration of the `while self.alive` body of `process_messages`, for one received
frame. The websocket transport and `json.loads`/`json.dumps` are external
collaborators: a received frame is modelled together with its decode outcome, and
the sent reply is modelled as the response envelope value (its JSON encoding by
`LiaisonJSONEncoder` is outside the model). -/

/-- The state the loop body touches: the shared registry, the `self.messages` log of
raw received frames, and the `self.alive` flag. -/
structure SessionState where
  ns : Namespace
  messages : List String
  alive : Bool

/-- A received frame together with the outcome of `json.loads` on it. -/
inductive Frame where
  | decoded (raw : String) (msg : PyVal)
  | undecodable (raw : String)

/-- Result of one loop iteration: a response envelope was sent and the loop
continues, or an exception escaped the handler and the coroutine died. -/
inductive StepOutcome where
  | reply (resp : PyVal) (st : SessionState)
  | crash (err : PyErr) (st : SessionState)

/-- Models `traceback.format_exception(err)`: a list of strings describing the failure. -/
def formatExc (e : PyErr) : PyVal :=
  vList [vStr (e.kind ++ ": " ++ e.msg)]

/-- The success response envelope `{'response': r, 'tag': "response", 'evt': msg}`. -/
def respEnvelope (r msg : PyVal) : PyVal :=
  vDict [(vStr "response", r), (vStr "tag", vStr "response"), (vStr "evt", msg)]

/-- The error response envelope
`{'error': traceback.format_exception(err), 'tag': "error", 'evt': msg}`. -/
def errEnvelope (e : PyErr) (msg : PyVal) : PyVal :=
  vDict [(vStr "error", formatExc e), (vStr "tag", vStr "error"), (vStr "evt", msg)]

/-- One iteration of `process_messages` on one frame.

Decoded frame: the raw text is appended to `self.messages`, then the inner
`try` evaluates `self.process_command(message['command'])` — the code passes the
envelope's `command` FIELD, not the envelope — building a `response`-tagged
envelope on success and an `error`-tagged envelope on any exception; the reply is
then sent and the loop continues with `self.alive` untouched.

Undecodable frame: the raw text was already appended when `json.loads` raised
`JSONDecodeError`; the handler then calls
`sys.stdout.write(traceback.format_exception(err))`, whose argument is a list of
strings, so `write` raises `TypeError` (and the next line spells `sys.stsout`,
an `AttributeError`); the exception escapes the `while` loop and the coroutine
dies before reaching `self.messages.append(err)`. -/
def processMessage (env : Env) (frame : Frame) (st : SessionState) : StepOutcome :=
  match frame with
  | .undecodable raw =>
      .crash ⟨"TypeError", "write() argument must be str, not list"⟩
        { st with messages := st.messages ++ [raw] }
  | .decoded raw msg =>
      let st₁ : SessionState := { st with messages := st.messages ++ [raw] }
      match (do
          let c ← pySubscript msg (vStr "command")
          processCommand env c st₁.ns) with
      | .ok (r, ns') => .reply (respEnvelope r msg) { st₁ with ns := ns' }
      | .error e => .reply (errEnvelope e msg) st₁

/-! ## The restricted dotted-path interpreter the spec describes

This definition follows spec section 4.1 rather than the source; it exists to be
compared with `resolveL`. -/

/-- One step of the spec's restricted interpreter: an identifier segment is a
get-by-name lookup; an all-digit segment is a get-by-index lookup; any other word
segment is treated as get-by-name. -/
def restrictedStep (v : PyVal) (seg : List Char) : Except PyErr PyVal :=
  if isPyIdent seg then pyGetattr v (String.mk seg)
  else if isDigitSeg seg then pySubscript v (vInt (digitsToNat seg))
  else pyGetattr v (String.mk seg)

/-- Modelled from the spec: spec section 4.1 describes `resolve` on a reference whose
leading segment is a registry key as evaluating "the remaining dotted path as a
sequence of attribute/index lookups rooted at that entry's value — this traversal is
a restricted interpreter (capability set: gettable-by-name, indexable), never a
general expression evaluator". The input must therefore be a dotted path of word
segments; anything else is outside the restricted grammar and is rejected. -/
def restrictedResolve (target : List Char) (ns : Namespace) : Except PyErr PyVal :=
  match splitChar '.' target with
  | root :: rest =>
      if (root :: rest).all isWordSeg then
        match nsLookup (vStr (String.mk root)) ns with
        | some v => rest.foldlM restrictedStep v
        | none => .error ⟨"ResolutionError", "name '" ++ String.mk root ++ "' is not registered"⟩
      else .error ⟨"ResolutionError", "reference is not a dotted path"⟩
  | [] => .error ⟨"ResolutionError", "reference is not a dotted path"⟩

/-- The segment of a reference before the first `.` (Python `target.split(".")[0]`). -/
def firstSeg (target : List Char) : List Char :=
  (splitChar '.' target).headD []

/-! ## Shared concrete instances used by witnesses and counterexamples -/

/-- An environment with no loadable modules and no callables. -/
def emptyEnv : Env := ⟨[], fun _ _ _ => .error ⟨"RuntimeError", "no such function"⟩⟩

/-- An environment exposing one loadable module `mymod`, itself carrying no
attributes beyond its declared `__name__`. -/
def moduleEnv : Env :=
  ⟨[("mymod", vModule "mymod" [])], fun _ _ _ => .error ⟨"RuntimeError", "no such function"⟩⟩

/-- An environment with two callables: `seven` returns 7, anything else raises. -/
def callEnv : Env :=
  ⟨[], fun n _ _ => if n = "seven" then .ok (vInt 7) else .error ⟨"RuntimeError", "boom"⟩⟩

/-- A registry binding `f` to the succeeding callable and `g` to the raising one. -/
def callNS : Namespace := [(vStr "f", vFun "seven"), (vStr "g", vFun "boom")]

/-- A registry binding `x` to an object with attribute `y = 2`. -/
def objNS : Namespace := [(vStr "x", vObj [("y", vInt 2)])]

/-- The session state right after `WebsocketLiaison` construction and connection:
registry seeded with the bridge objects, no messages, alive. -/
def initialSession : SessionState := ⟨liaisonInitNS, [], true⟩

/-- The decoded scenario-A envelope `{"command": "store", "args": ["x", 42]}`. -/
def scenarioAEnvelope : PyVal :=
  vDict [(vStr "command", vStr "store"), (vStr "args", vList [vStr "x", vInt 42])]

/-- A decoded frame whose `command` field is a whole envelope running
`get("$nope")`, whose dispatch raises. -/
def nestedGetEnvelope : PyVal :=
  vDict [(vStr "command",
    vDict [(vStr "command", vStr "get"), (vStr "args", vList [vStr "$nope"])])]

/-- A valid ping envelope. -/
def pingEnvelope : PyVal := vDict [(vStr "command", vStr "ping")]

/-- Whether a value is a string fully matching the namespace-reference grammar: the
guard `isinstance(arg, str) and RE_RESOLVE_STRING.fullmatch(arg)` in `actualize`. -/
def isSigilRef : PyVal → Bool
  | vStr s => matchResolveString s.data
  | _ => false

/-! ## Helper lemmas -/

theorem pyKeyEq_str (a b : String) : pyKeyEq (vStr a) (vStr b) = (a == b) := rfl

theorem nsLookup_insert_self (s : String) (v : PyVal) (ns : Namespace) :
    nsLookup (vStr s) (nsInsert (vStr s) v ns) = some v := by
  induction ns with
  | nil => simp [nsInsert, nsLookup, pyKeyEq]
  | cons kv rest ih =>
      obtain ⟨k', v'⟩ := kv
      by_cases h : pyKeyEq k' (vStr s) = true
      · simp [nsInsert, h, nsLookup]
      · simp [nsInsert, h, nsLookup, ih]

theorem nsContains_insert_self (s : String) (v : PyVal) (ns : Namespace) :
    nsContains (vStr s) (nsInsert (vStr s) v ns) = true := by
  induction ns with
  | nil => simp [nsInsert, nsContains, pyKeyEq]
  | cons kv rest ih =>
      obtain ⟨k', v'⟩ := kv
      by_cases h : pyKeyEq k' (vStr s) = true
      · simp [nsInsert, h, nsContains]
      · simp [nsInsert, h, nsContains, ih]

theorem nsContains_lookup (k : PyVal) (ns : Namespace) (h : nsContains k ns = true) :
    ∃ v, nsLookup k ns = some v := by
  induction ns with
  | nil => simp [nsContains] at h
  | cons kv rest ih =>
      obtain ⟨k', v'⟩ := kv
      by_cases h' : pyKeyEq k' k = true
      · exact ⟨v', by simp [nsLookup, h']⟩
      · simp [nsContains, h'] at h
        obtain ⟨v, hv⟩ := ih h
        exact ⟨v, by simp [nsLookup, h', hv]⟩

theorem splitCharAux_append (c : Char) (l rest acc : List Char) (h : c ∉ l) :
    splitCharAux c (l ++ rest) acc = splitCharAux c rest (l.reverse ++ acc) := by
  induction l generalizing acc with
  | nil => simp
  | cons x xs ih =>
      have hx : (x == c) = false := by
        simp only [List.mem_cons] at h
        simp only [beq_eq_false_iff_ne, ne_eq]
        exact fun hxc => h (Or.inl hxc.symm)
      simp only [List.cons_append, splitCharAux, hx, Bool.false_eq_true, if_false,
        List.append_eq]
      rw [ih (x :: acc) (fun hm => h (List.mem_cons_of_mem _ hm))]
      simp

theorem splitCharAux_no_sep (c : Char) (l acc : List Char) (h : c ∉ l) :
    splitCharAux c l acc = [acc.reverse ++ l] := by
  have := splitCharAux_append c l [] acc h
  simp only [List.append_nil] at this
  rw [this]
  simp [splitCharAux]

theorem splitChar_no_sep (c : Char) (l : List Char) (h : c ∉ l) :
    splitChar c l = [l] := by
  unfold splitChar
  rw [splitCharAux_no_sep c l [] h]
  simp

theorem joinDots_cons (x : List Char) (y : List Char) (xs : List (List Char)) :
    joinDots (x :: y :: xs) = x ++ '.' :: joinDots (y :: xs) := rfl

theorem splitChar_joinDots (xs : List (List Char)) (hne : xs ≠ [])
    (h : ∀ x ∈ xs, '.' ∉ x) : splitChar '.' (joinDots xs) = xs := by
  induction xs with
  | nil => exact absurd rfl hne
  | cons x rest ih =>
      cases rest with
      | nil =>
          exact splitChar_no_sep '.' x (h x (List.mem_cons_self x []))
      | cons y ys =>
          rw [joinDots_cons]
          unfold splitChar
          rw [splitCharAux_append '.' x ('.' :: joinDots (y :: ys)) []
            (h x (List.mem_cons_self x _))]
          simp only [splitCharAux, beq_self_eq_true, if_true, List.append_nil,
            List.reverse_reverse]
          rw [show splitCharAux '.' (joinDots (y :: ys)) [] = splitChar '.' (joinDots (y :: ys)) from rfl]
          rw [ih (by simp) (fun z hz => h z (List.mem_cons_of_mem _ hz))]

theorem splitCharAux_ne_nil (c : Char) (l acc : List Char) :
    splitCharAux c l acc ≠ [] := by
  induction l generalizing acc with
  | nil => simp [splitCharAux]
  | cons x xs ih =>
      by_cases h : (x == c) = true
      · simp [splitCharAux, h]
      · simp only [splitCharAux, h, Bool.false_eq_true, if_false]
        exact ih _

theorem splitChar_ne_nil (c : Char) (l : List Char) : splitChar c l ≠ [] :=
  splitCharAux_ne_nil c l []

theorem isIdentChar_of_pyIdentHead (c : Char) (h : (c.isAlpha || c == '_') = true) :
    isIdentChar c = true := by
  unfold isIdentChar
  rcases Bool.or_eq_true_iff.mp h with h' | h'
  · simp [h']
  · simp [h']

theorem all_identChar_of_isPyIdent (l : List Char) (h : isPyIdent l = true) :
    l.all isIdentChar = true := by
  cases l with
  | nil => simp [isPyIdent] at h
  | cons c cs =>
      simp only [isPyIdent, Bool.and_eq_true] at h
      simp only [List.all_cons, Bool.and_eq_true]
      exact ⟨isIdentChar_of_pyIdentHead c h.1, h.2⟩

theorem not_mem_of_all_identChar (c : Char) (l : List Char)
    (hc : isIdentChar c = false) (h : l.all isIdentChar = true) : c ∉ l := by
  intro hm
  have := List.all_eq_true.mp h c hm
  rw [hc] at this
  exact Bool.false_ne_true this

theorem pyIdent_not_mem_dot (l : List Char) (h : isPyIdent l = true) : '.' ∉ l :=
  not_mem_of_all_identChar '.' l (by decide) (all_identChar_of_isPyIdent l h)

theorem pyIdent_not_mem_plus (l : List Char) (h : isPyIdent l = true) : '+' ∉ l :=
  not_mem_of_all_identChar '+' l (by decide) (all_identChar_of_isPyIdent l h)

theorem isWordSeg_of_isPyIdent (l : List Char) (h : isPyIdent l = true) :
    isWordSeg l = true := by
  cases l with
  | nil => simp [isPyIdent] at h
  | cons c cs =>
      simp only [isWordSeg, List.isEmpty_cons, Bool.not_false, Bool.true_and]
      exact all_identChar_of_isPyIdent _ h

theorem mem_joinDots (x : Char) (xs : List (List Char)) (h : x ∈ joinDots xs) :
    x = '.' ∨ ∃ l ∈ xs, x ∈ l := by
  induction xs with
  | nil => simp [joinDots] at h
  | cons l rest ih =>
      cases rest with
      | nil =>
          right
          exact ⟨l, List.mem_cons_self _ _, h⟩
      | cons y ys =>
          rw [joinDots_cons] at h
          rcases List.mem_append.mp h with h' | h'
          · right; exact ⟨l, List.mem_cons_self _ _, h'⟩
          · rcases List.mem_cons.mp h' with h'' | h''
            · left; exact h''
            · rcases ih h'' with h3 | ⟨l', hl', hx⟩
              · left; exact h3
              · right; exact ⟨l', List.mem_cons_of_mem _ hl', hx⟩

theorem plus_not_mem_joinDots (xs : List (List Char))
    (h : ∀ l ∈ xs, isPyIdent l = true) : '+' ∉ joinDots xs := by
  intro hm
  rcases mem_joinDots '+' xs hm with h' | ⟨l, hl, hx⟩
  · exact absurd h' (by decide)
  · exact pyIdent_not_mem_plus l (h l hl) hx

theorem parseTerm_identPath (root : List Char) (rest : List (List Char))
    (hroot : isPyIdent root = true) (hrest : ∀ s ∈ rest, isPyIdent s = true) :
    parseTerm (joinDots (root :: rest)) = some (.path root rest) := by
  have hdots : ∀ x ∈ root :: rest, '.' ∉ x := by
    intro x hx
    rcases List.mem_cons.mp hx with h | h
    · exact h ▸ pyIdent_not_mem_dot root hroot
    · exact pyIdent_not_mem_dot x (hrest x h)
  have hsplit : splitChar '.' (joinDots (root :: rest)) = root :: rest :=
    splitChar_joinDots _ (by simp) hdots
  unfold parseTerm
  rw [hsplit]
  simp [hroot, List.all_eq_true.mpr hrest]

theorem pyEval_identPath (root : List Char) (rest : List (List Char)) (ns : Namespace)
    (hroot : isPyIdent root = true) (hrest : ∀ s ∈ rest, isPyIdent s = true) :
    pyEval (joinDots (root :: rest)) ns = evalTerm ns (.path root rest) := by
  have hplus : '+' ∉ joinDots (root :: rest) := by
    apply plus_not_mem_joinDots
    intro l hl
    rcases List.mem_cons.mp hl with h | h
    · exact h ▸ hroot
    · exact hrest l h
  have hmap : List.mapM parseTerm [joinDots (root :: rest)] = some [PyTerm.path root rest] := by
    unfold List.mapM List.mapM.loop
    rw [parseTerm_identPath root rest hroot hrest]
    rfl
  unfold pyEval
  rw [splitChar_no_sep '+' _ hplus, hmap]
  show (evalTerm ns (.path root rest) >>= fun acc => List.foldlM _ acc []) = _
  cases h : evalTerm ns (.path root rest) with
  | ok v => rfl
  | error e => rfl

theorem foldlM_getattr_eq_restricted (rest : List (List Char))
    (h : ∀ s ∈ rest, isPyIdent s = true) (v : PyVal) :
    rest.foldlM (fun v a => pyGetattr v (String.mk a)) v =
      rest.foldlM restrictedStep v := by
  induction rest generalizing v with
  | nil => rfl
  | cons s ss ih =>
      have hs : isPyIdent s = true := h s (List.mem_cons_self _ _)
      have hstep : restrictedStep v s = pyGetattr v (String.mk s) := by
        simp [restrictedStep, hs]
      rw [List.foldlM_cons, List.foldlM_cons, hstep]
      cases hg : pyGetattr v (String.mk s) with
      | ok w =>
          show ss.foldlM (fun v a => pyGetattr v (String.mk a)) w = ss.foldlM restrictedStep w
          exact ih (fun t ht => h t (List.mem_cons_of_mem _ ht)) w
      | error e =>
          rfl

/-! ## Claims -/

/-- C1: the spec says that on a received frame decoding to a command envelope the
session loop runs the dispatcher on that envelope, so that the scenario-A frame
`{"command":"store","args":["x",42]}` stores `x→42` and is answered with
`{"tag":"response","response":"x",...}`. The code instead passes `message['command']`
— the bare string `"store"` — to `process_command`; the string fails schema
validation, so nothing is stored and the reply carries `None`: evaluating the loop
step on the scenario-A frame leaves the registry without `x` and produces the
envelope `{"response": None, "tag": "response", "evt": <frame>}`. -/
theorem c1_session_loop_drops_scenario_a_store :
    processMessage emptyEnv
        (.decoded "\x7b\"command\": \"store\", \"args\": [\"x\", 42]\x7d" scenarioAEnvelope)
        initialSession =
      .reply (respEnvelope vNone scenarioAEnvelope)
        ⟨liaisonInitNS, ["\x7b\"command\": \"store\", \"args\": [\"x\", 42]\x7d"], true⟩ ∧
    processCommand emptyEnv (vStr "store") liaisonInitNS = .ok (vNone, liaisonInitNS) ∧
    nsLookup (vStr "x") liaisonInitNS = none := ⟨rfl, rfl, rfl⟩

/-- C9: the spec says a frame that fails JSON decoding is recorded as a diagnostic
and the loop continues. In the code the `JSONDecodeError` handler itself raises
(`sys.stdout.write` is given a list of strings, and the next line spells
`sys.stsout`), so the exception escapes the `while` loop and the session dies: the
loop step on any undecodable frame crashes instead of continuing. -/
theorem c9_decode_failure_crashes_session (env : Env) (raw : String) (st : SessionState) :
    processMessage env (.undecodable raw) st =
      .crash ⟨"TypeError", "write() argument must be str, not list"⟩
        { st with messages := st.messages ++ [raw] } := rfl

/-- C5: the spec says `register(None, ref)` infers the name from the resolved
target's declared name when the target has one. The code tests
`"__name__" in element` — the membership operator, not `hasattr` — which raises
`TypeError` on a module (modules are not iterable), so registration of the named
module `mymod` fails with `TypeError` even though the target resolves and carries
`__name__ == "mymod"`. -/
theorem c5_register_name_inference_raises_type_error :
    resolveImportVal (vStr "mymod") moduleEnv = .ok (vModule "mymod" []) ∧
    pyGetattr (vModule "mymod" []) "__name__" = .ok (vStr "mymod") ∧
    registerFn vNone (vStr "mymod") companionInitNS moduleEnv =
      .error ⟨"TypeError", "argument is not iterable"⟩ := ⟨rfl, rfl, rfl⟩

/-- C3 (counterexample): the claim says `store(name, v)` followed by
`resolve("$" + name)` yields `v`. At `name = "x", v = 42`, `store` succeeds but
`resolve("$x")` raises: `"$x"` is not a registry key (keys never carry the sigil)
and fails the import-string regex, so the claim's composition errors instead of
yielding 42. -/
theorem c3_resolve_with_sigil_fails :
    storeFn (vStr "x") (vInt 42) companionInitNS =
      .ok (vStr "x", nsInsert (vStr "x") (vInt 42) companionInitNS) ∧
    resolveTarget (vStr "$x") (nsInsert (vStr "x") (vInt 42) companionInitNS) emptyEnv =
      .error ⟨"AssertionError", "Target '$x' does not look like a Python import."⟩ :=
  ⟨rfl, rfl⟩

/-- C3 (amended): for every identifier `name` and value `v`, `store(name, v)`
returns `name`, and `resolve` applied afterwards to `name` itself — the reference
without the sigil, which is what `actualize` passes after stripping `$` — yields a
value equal to `v`. -/
theorem c3_store_resolve_roundtrip (ns : Namespace) (env : Env) (name : List Char)
    (v : PyVal) (h : isPyIdent name = true) :
    storeFn (vStr (String.mk name)) v ns =
      .ok (vStr (String.mk name), nsInsert (vStr (String.mk name)) v ns) ∧
    resolveTarget (vStr (String.mk name)) (nsInsert (vStr (String.mk name)) v ns) env =
      .ok v := by
  refine ⟨rfl, ?_⟩
  show resolveL name (nsInsert (vStr (String.mk name)) v ns) env = .ok v
  unfold resolveL
  rw [splitChar_no_sep '.' name (pyIdent_not_mem_dot name h)]
  simp only [nsContains_insert_self, if_true]
  have h2 := pyEval_identPath name [] (nsInsert (vStr (String.mk name)) v ns) h (by simp)
  rw [show pyEval name (nsInsert (vStr (String.mk name)) v ns) =
      evalTerm (nsInsert (vStr (String.mk name)) v ns) (.path name []) from h2]
  simp only [evalTerm, nsLookup_insert_self]
  rfl

/-- Concrete instance of `c3_store_resolve_roundtrip` at `name = "x"`, `v = 42`. -/
theorem c3_store_resolve_roundtrip_witness :
    storeFn (vStr (String.mk ['x'])) (vInt 42) companionInitNS =
      .ok (vStr (String.mk ['x']), nsInsert (vStr (String.mk ['x'])) (vInt 42) companionInitNS) ∧
    resolveTarget (vStr (String.mk ['x']))
        (nsInsert (vStr (String.mk ['x'])) (vInt 42) companionInitNS) emptyEnv =
      .ok (vInt 42) :=
  c3_store_resolve_roundtrip companionInitNS emptyEnv ['x'] (vInt 42) (by decide)

/-- C4 (counterexample): the claim says that for a reference whose leading dotted
segment is a registry key, `resolve` evaluates only the remaining dotted path by
attribute/index lookups — never a general expression evaluator. With `x` registered
as an object with `y = 2`, the reference `"x.y+1"` has leading segment `x` in the
registry, and `resolve` returns 3: it evaluated the addition `x.y + 1` through
Python `eval`, which no attribute/index traversal performs (the restricted
interpreter of the spec rejects the input). -/
theorem c4_resolve_evaluates_general_expression :
    resolveTarget (vStr "x.y+1") objNS emptyEnv = .ok (vInt 3) ∧
    restrictedResolve "x.y+1".data objNS =
      .error ⟨"ResolutionError", "reference is not a dotted path"⟩ ∧
    firstSeg "x.y+1".data = ['x'] ∧
    nsContains (vStr "x") objNS = true := ⟨rfl, rfl, rfl, rfl⟩

/-- C4 (amended): `resolve` hands the whole reference to Python `eval` in the
registry namespace — a general expression evaluator, not a restricted interpreter —
but on references that are pure dotted identifier paths its evaluation coincides
with the spec's restricted attribute-lookup traversal; and for every reference whose
leading segment is not a registry key, the whole string is resolved as an import
reference instead. -/
theorem c4_resolve_restricted_on_dotted_paths :
    (∀ (ns : Namespace) (env : Env) (root : List Char) (rest : List (List Char)),
       isPyIdent root = true → (∀ s ∈ rest, isPyIdent s = true) →
       nsContains (vStr (String.mk root)) ns = true →
       resolveL (joinDots (root :: rest)) ns env =
         restrictedResolve (joinDots (root :: rest)) ns) ∧
    (∀ (ns : Namespace) (env : Env) (target : List Char),
       nsContains (vStr (String.mk (firstSeg target))) ns = false →
       resolveL target ns env = resolveImport target env) := by
  constructor
  · intro ns env root rest hroot hrest hcont
    have hdots : ∀ x ∈ root :: rest, '.' ∉ x := by
      intro x hx
      rcases List.mem_cons.mp hx with h | h
      · exact h ▸ pyIdent_not_mem_dot root hroot
      · exact pyIdent_not_mem_dot x (hrest x h)
    have hsplit : splitChar '.' (joinDots (root :: rest)) = root :: rest :=
      splitChar_joinDots _ (by simp) hdots
    have hword : (root :: rest).all isWordSeg = true := by
      rw [List.all_eq_true]
      intro x hx
      rcases List.mem_cons.mp hx with h | h
      · exact h ▸ isWordSeg_of_isPyIdent root hroot
      · exact isWordSeg_of_isPyIdent x (hrest x h)
    obtain ⟨v, hv⟩ := nsContains_lookup _ _ hcont
    unfold resolveL restrictedResolve
    rw [hsplit]
    simp only [hcont, if_true, hword, hv]
    rw [pyEval_identPath root rest ns hroot hrest]
    simp only [evalTerm, hv]
    exact foldlM_getattr_eq_restricted rest hrest v
  · intro ns env target hc
    obtain ⟨seg0, segs, hsp⟩ : ∃ a b, splitChar '.' target = a :: b := by
      cases hsc : splitChar '.' target with
      | nil => exact absurd hsc (splitChar_ne_nil '.' target)
      | cons a b => exact ⟨a, b, rfl⟩
    have hfs : firstSeg target = seg0 := by simp [firstSeg, hsp]
    rw [hfs] at hc
    unfold resolveL
    rw [hsp]
    simp [hc]

/-- Concrete instance of `c4_resolve_restricted_on_dotted_paths`: the pure dotted
path `x.y` with `x` registered resolves by attribute traversal to 2, and a
reference rooted at an unregistered name falls through to import resolution. -/
theorem c4_resolve_restricted_on_dotted_paths_witness :
    resolveL (joinDots [['x'], ['y']]) objNS emptyEnv =
      restrictedResolve (joinDots [['x'], ['y']]) objNS ∧
    restrictedResolve (joinDots [['x'], ['y']]) objNS = .ok (vInt 2) ∧
    resolveL "nope".data objNS emptyEnv = resolveImport "nope".data emptyEnv :=
  ⟨c4_resolve_restricted_on_dotted_paths.1 objNS emptyEnv ['x'] [['y']]
      (by decide) (by decide) (by decide),
   rfl,
   c4_resolve_restricted_on_dotted_paths.2 objNS emptyEnv "nope".data (by decide)⟩

/-- C6: `actualize` replaces a string matching `^\$ident(.ident)*$` by
`resolve` of the string without its sigil, returns every other value unchanged
(in particular lists and dicts pass through whole, so a nested sigil string is
never resolved), and `call` applies it independently to each top-level positional
argument and each keyword key and value. -/
theorem c6_actualize_top_level_only :
    (∀ (ns : Namespace) (env : Env) (s : String), matchResolveString s.data = true →
       actualize (vStr s) ns env = resolveL s.data.tail ns env) ∧
    (∀ (ns : Namespace) (env : Env) (v : PyVal), isSigilRef v = false →
       actualize v ns env = .ok v) ∧
    (∀ (ns : Namespace) (env : Env) (xs : List PyVal),
       actualize (vList xs) ns env = .ok (vList xs)) ∧
    (∀ (ns : Namespace) (env : Env) (entries : List (PyVal × PyVal)),
       actualize (vDict entries) ns env = .ok (vDict entries)) ∧
    (∀ (fcn : PyVal) (args : List PyVal) (kwargs : List (String × PyVal))
       (ns : Namespace) (env : Env),
       callFn fcn args kwargs ns env = do
         let f ← resolveTarget fcn ns env
         let args2 ← args.mapM (fun a => actualize a ns env)
         let kwPairs ← kwargs.mapM (actualizeKw ns env)
         let kwargs2 ← asStrKeys kwPairs
         let r ← applyCallable env f args2 kwargs2
         pure (r, ns)) := by
  refine ⟨?_, ?_, ?_, ?_, ?_⟩
  · intro ns env s h
    simp [actualize, h]
  · intro ns env v h
    cases v <;> simp_all [actualize, isSigilRef]
  · intro ns env xs; rfl
  · intro ns env entries; rfl
  · intro fcn args kwargs ns env; rfl

/-- Concrete instance of `c6_actualize_top_level_only`: the sigil string `$f` is
resolved to the registered callable, a non-string passes through, and the same
sigil string nested in a list is passed through unresolved. -/
theorem c6_actualize_top_level_only_witness :
    actualize (vStr "$f") callNS callEnv = resolveL "$f".data.tail callNS callEnv ∧
    resolveL "$f".data.tail callNS callEnv = .ok (vFun "seven") ∧
    actualize (vInt 5) callNS callEnv = .ok (vInt 5) ∧
    actualize (vList [vStr "$f"]) callNS callEnv = .ok (vList [vStr "$f"]) :=
  ⟨c6_actualize_top_level_only.1 callNS callEnv "$f" rfl, rfl,
   c6_actualize_top_level_only.2.1 callNS callEnv (vInt 5) rfl,
   c6_actualize_top_level_only.2.2.1 callNS callEnv [vStr "$f"]⟩

/-- C7: `attempt` never propagates an exception: whatever `call` does, `attempt`
returns normally, with `{'success': True, 'result': value}` when the underlying
call (reference resolution and argument actualization included) succeeds and
`{'success': False, 'result': <captured exception>}` when it raises. -/
theorem c7_attempt_never_propagates (fcn : PyVal) (args : List PyVal)
    (kwargs : List (String × PyVal)) (ns : Namespace) (env : Env) :
    (∃ r, attemptFn fcn args kwargs ns env = .ok r) ∧
    (∀ (v : PyVal) (ns2 : Namespace), callFn fcn args kwargs ns env = .ok (v, ns2) →
       attemptFn fcn args kwargs ns env =
         .ok (vDict [(vStr "success", vBool true), (vStr "result", v)], ns2)) ∧
    (∀ e : PyErr, callFn fcn args kwargs ns env = .error e →
       attemptFn fcn args kwargs ns env =
         .ok (vDict [(vStr "success", vBool false), (vStr "result", vExc e.kind e.msg)], ns)) := by
  cases h : callFn fcn args kwargs ns env with
  | ok p =>
      obtain ⟨v, ns2⟩ := p
      refine ⟨⟨(vDict [(vStr "success", vBool true), (vStr "result", v)], ns2), ?_⟩, ?_, ?_⟩
      · unfold attemptFn; rw [h]
      · intro v' ns' hv
        have hp : v = v' ∧ ns2 = ns' := by
          have := (Except.ok.injEq _ _).mp hv
          exact ⟨congrArg Prod.fst this, congrArg Prod.snd this⟩
        obtain ⟨rfl, rfl⟩ := hp
        unfold attemptFn; rw [h]
      · intro e he
        exact Except.noConfusion he
  | error e =>
      refine ⟨⟨(vDict [(vStr "success", vBool false), (vStr "result", vExc e.kind e.msg)], ns),
        ?_⟩, ?_, ?_⟩
      · unfold attemptFn; rw [h]
      · intro v' ns' hv
        exact Except.noConfusion hv
      · intro e' he
        have : e = e' := (Except.error.injEq _ _).mp he
        subst this
        unfold attemptFn; rw [h]

/-- Concrete instance of `c7_attempt_never_propagates`: attempting the registered
callable `f` succeeds with 7; attempting `g`, whose call raises `RuntimeError`,
returns the failure record instead of propagating. -/
theorem c7_attempt_never_propagates_witness :
    attemptFn (vStr "f") [] [] callNS callEnv =
      .ok (vDict [(vStr "success", vBool true), (vStr "result", vInt 7)], callNS) ∧
    attemptFn (vStr "g") [] [] callNS callEnv =
      .ok (vDict [(vStr "success", vBool false),
        (vStr "result", vExc "RuntimeError" "boom")], callNS) :=
  ⟨(c7_attempt_never_propagates (vStr "f") [] [] callNS callEnv).2.1 (vInt 7) callNS rfl,
   (c7_attempt_never_propagates (vStr "g") [] [] callNS callEnv).2.2 ⟨"RuntimeError", "boom"⟩ rfl⟩

/-- C10: immediately after `Companion.__init__` the registry maps `companion` to
the companion object, and after `BaseLiaison.__init__` additionally `liaison` to the
liaison object; neither name is reserved: `store`, `register` and `initialize`
overwrite any key, these two included, exactly like any other. -/
theorem c10_bridge_objects_registered_and_overwritable :
    nsLookup (vStr "companion") companionInitNS = some vCompanion ∧
    nsLookup (vStr "companion") liaisonInitNS = some vCompanion ∧
    nsLookup (vStr "liaison") liaisonInitNS = some vLiaison ∧
    (∀ (ns : Namespace) (k : String) (v : PyVal),
       storeFn (vStr k) v ns = .ok (vStr k, nsInsert (vStr k) v ns) ∧
       nsLookup (vStr k) (nsInsert (vStr k) v ns) = some v) ∧
    (∀ (ns : Namespace) (env : Env) (k : String) (target elem : PyVal),
       resolveImportVal target env = .ok elem →
       registerFn (vStr k) target ns env = .ok (vStr k, nsInsert (vStr k) elem ns) ∧
       nsLookup (vStr k) (nsInsert (vStr k) elem ns) = some elem) ∧
    (∀ (ns ns1 : Namespace) (env : Env) (k : String) (cls v : PyVal)
       (args : List PyVal) (kwargs : List (String × PyVal)),
       callFn cls args kwargs ns env = .ok (v, ns1) →
       initializeFn (vStr k) cls args kwargs ns env =
         .ok (vStr k, nsInsert (vStr k) v ns1)) := by
  refine ⟨rfl, rfl, rfl, ?_, ?_, ?_⟩
  · intro ns k v
    exact ⟨rfl, nsLookup_insert_self k v ns⟩
  · intro ns env k target elem h
    refine ⟨?_, nsLookup_insert_self k elem ns⟩
    unfold registerFn
    rw [h]
    rfl
  · intro ns ns1 env k cls v args kwargs h
    unfold initializeFn
    rw [h]
    rfl

/-- Concrete instance of `c10_bridge_objects_registered_and_overwritable`:
overwriting `companion` by `store` and `initialize` and `liaison` by `register`. -/
theorem c10_bridge_objects_registered_and_overwritable_witness :
    storeFn (vStr "companion") (vInt 1) liaisonInitNS =
      .ok (vStr "companion", nsInsert (vStr "companion") (vInt 1) liaisonInitNS) ∧
    nsLookup (vStr "companion") (nsInsert (vStr "companion") (vInt 1) liaisonInitNS) =
      some (vInt 1) ∧
    registerFn (vStr "liaison") (vStr "mymod") liaisonInitNS moduleEnv =
      .ok (vStr "liaison", nsInsert (vStr "liaison") (vModule "mymod" []) liaisonInitNS) ∧
    initializeFn (vStr "companion") (vStr "f") [] [] callNS callEnv =
      .ok (vStr "companion", nsInsert (vStr "companion") (vInt 7) callNS) :=
  ⟨(c10_bridge_objects_registered_and_overwritable.2.2.2.1 liaisonInitNS "companion" (vInt 1)).1,
   (c10_bridge_objects_registered_and_overwritable.2.2.2.1 liaisonInitNS "companion" (vInt 1)).2,
   (c10_bridge_objects_registered_and_overwritable.2.2.2.2.1 liaisonInitNS moduleEnv "liaison"
      (vStr "mymod") (vModule "mymod" []) rfl).1,
   c10_bridge_objects_registered_and_overwritable.2.2.2.2.2 callNS callNS callEnv "companion"
      (vStr "f") (vInt 7) [] [] rfl⟩

/-- C2: an envelope failing schema validation makes `process_command` return `None`
with no effect and no exception; a validating envelope names one of the seven table
commands, and `process_command` invokes exactly the table operation for that name,
passing the envelope's `args` positionally and its `kwargs` by key, with `args`
defaulting to `[]` and `kwargs` to `{}` when absent, returning the operation's raw
result; the table is exactly get→resolve, init→initialize, run→call, try→attempt,
register→register, store→store, ping→ping. -/
theorem c2_dispatch_table_and_validation :
    (∀ (env : Env) (cmd : PyVal) (ns : Namespace), validateCommand cmd = false →
       processCommand env cmd ns = .ok (vNone, ns)) ∧
    (∀ entries : List (PyVal × PyVal), validateCommand (vDict entries) = true →
       ∃ c : String, dictGet entries (vStr "command") = some (vStr c) ∧
         commandNames.contains c = true) ∧
    (∀ entries : List (PyVal × PyVal), dictGet entries (vStr "args") = none →
       envelopeArgs entries = []) ∧
    (∀ entries : List (PyVal × PyVal), dictGet entries (vStr "kwargs") = none →
       envelopeKwargs entries = []) ∧
    (∀ (env : Env) (entries : List (PyVal × PyVal)) (ns : Namespace) (c : String)
       (f : CommandFn),
       validateCommand (vDict entries) = true →
       dictGet entries (vStr "command") = some (vStr c) →
       tableLookup c commandsTable = some f →
       processCommand env (vDict entries) ns = do
         let kw ← asStrKeys (envelopeKwargs entries)
         f (envelopeArgs entries) kw ns env) ∧
    (∀ c : String, commandNames.contains c = true →
       ∃ f, tableLookup c commandsTable = some f) ∧
    tableLookup "get" commandsTable = some getCmd ∧
    tableLookup "init" commandsTable = some initCmd ∧
    tableLookup "run" commandsTable = some runCmd ∧
    tableLookup "try" commandsTable = some tryCmd ∧
    tableLookup "register" commandsTable = some registerCmd ∧
    tableLookup "store" commandsTable = some storeCmd ∧
    tableLookup "ping" commandsTable = some pingCmd := by
  refine ⟨?_, ?_, ?_, ?_, ?_, ?_, rfl, rfl, rfl, rfl, rfl, rfl, rfl⟩
  · intro env cmd ns h
    unfold processCommand
    rw [h]
    rfl
  · intro entries h
    simp only [validateCommand] at h
    cases hdg : dictGet entries (vStr "command") with
    | none => rw [hdg] at h; simp at h
    | some v =>
        rw [hdg] at h
        cases v with
        | vStr s =>
            simp only [Bool.and_eq_true] at h
            exact ⟨s, rfl, h.1.1⟩
        | vNone => exact absurd h Bool.false_ne_true
        | vBool b => exact absurd h Bool.false_ne_true
        | vInt n => exact absurd h Bool.false_ne_true
        | vList xs => exact absurd h Bool.false_ne_true
        | vDict d => exact absurd h Bool.false_ne_true
        | vObj a => exact absurd h Bool.false_ne_true
        | vModule n a => exact absurd h Bool.false_ne_true
        | vFun n => exact absurd h Bool.false_ne_true
        | vExc k m => exact absurd h Bool.false_ne_true
        | vCompanion => exact absurd h Bool.false_ne_true
        | vLiaison => exact absurd h Bool.false_ne_true
  · intro entries h
    unfold envelopeArgs
    rw [h]
  · intro entries h
    unfold envelopeKwargs
    rw [h]
  · intro env entries ns c f hval hc hf
    unfold processCommand
    rw [hval]
    simp only [hc, hf, if_true]
  · intro c h
    have hm : c ∈ commandNames := by simpa using h
    simp only [commandNames, List.mem_cons, List.mem_singleton] at hm
    rcases hm with rfl | rfl | rfl | rfl | rfl | rfl | rfl | hm
    · exact ⟨getCmd, rfl⟩
    · exact ⟨initCmd, rfl⟩
    · exact ⟨runCmd, rfl⟩
    · exact ⟨tryCmd, rfl⟩
    · exact ⟨registerCmd, rfl⟩
    · exact ⟨storeCmd, rfl⟩
    · exact ⟨pingCmd, rfl⟩
    · simp at hm

/-- Definitional unfolding of the loop step on a decoded frame. -/
theorem processMessage_decoded (env : Env) (raw : String) (msg : PyVal)
    (st : SessionState) :
    processMessage env (.decoded raw msg) st =
      match (pySubscript msg (vStr "command") >>= fun c =>
          processCommand env c ({ st with messages := st.messages ++ [raw] } :
            SessionState).ns) with
      | .ok (r, ns') =>
          .reply (respEnvelope r msg) ⟨ns', st.messages ++ [raw], st.alive⟩
      | .error e =>
          .reply (errEnvelope e msg) { st with messages := st.messages ++ [raw] } := rfl

/-- C8: whenever a dispatched command raises — the frame decoded, its `command`
field extracted, and `process_command` on it returning an exception — the loop's
inner handler catches it and still sends a reply on the same connection, tagged
`error` and carrying the formatted failure and the decoded frame, and the session's
`alive` flag is untouched, so the loop never terminates because of a command
failure. -/
theorem c8_dispatcher_error_sends_error_envelope (env : Env) (st : SessionState) (raw : String) (msg c : PyVal) (e : PyErr)
    (h1 : pySubscript msg (vStr "command") = .ok c)
    (_h2 : validateCommand c = true)
    (h3 : processCommand env c st.ns = .error e) :
    processMessage env (.decoded raw msg) st =
      .reply (errEnvelope e msg) { st with messages := st.messages ++ [raw] } ∧
    ({ st with messages := st.messages ++ [raw] } : SessionState).alive = st.alive := by
  refine ⟨?_, rfl⟩
  have hs : (pySubscript msg (vStr "command") >>= fun c' =>
      processCommand env c' ({ st with messages := st.messages ++ [raw] } :
        SessionState).ns) = .error e := by
    rw [h1]
    exact h3
  rw [processMessage_decoded, hs]

/-- Concrete instance of `c2_dispatch_table_and_validation`: a non-envelope value is
dropped with no effect, and a valid ping envelope dispatches to `ping`, returning
`"pong"`. -/
theorem c2_dispatch_table_and_validation_witness :
    processCommand emptyEnv (vStr "nonsense") companionInitNS =
      .ok (vNone, companionInitNS) ∧
    processCommand emptyEnv pingEnvelope companionInitNS =
      .ok (vStr "pong", companionInitNS) := by
  refine ⟨c2_dispatch_table_and_validation.1 emptyEnv (vStr "nonsense") companionInitNS rfl, ?_⟩
  have h := c2_dispatch_table_and_validation.2.2.2.2.1 emptyEnv
      [(vStr "command", vStr "ping")] companionInitNS "ping" pingCmd rfl rfl rfl
  exact h.trans rfl

/-- Concrete instance of `c8_dispatcher_error_sends_error_envelope`: dispatching
`get("$nope")` raises an `AssertionError`, and the loop replies with the
error-tagged envelope while staying alive. -/
theorem c8_dispatcher_error_sends_error_envelope_witness :
    processMessage emptyEnv (.decoded "raw8" nestedGetEnvelope) initialSession =
      .reply (errEnvelope
          ⟨"AssertionError", "Target '$nope' does not look like a Python import."⟩
          nestedGetEnvelope)
        { initialSession with messages := initialSession.messages ++ ["raw8"] } ∧
    ({ initialSession with messages := initialSession.messages ++ ["raw8"] } :
        SessionState).alive = initialSession.alive :=
  c8_dispatcher_error_sends_error_envelope emptyEnv initialSession "raw8" nestedGetEnvelope
    (vDict [(vStr "command", vStr "get"), (vStr "args", vList [vStr "$nope"])])
    ⟨"AssertionError", "Target '$nope' does not look like a Python import."⟩
    rfl rfl rfl

end Liaison
